import Mathlib

/-
  Verification development for the `blocks-markdown-parser` library of the
  `notion-stuff` repository
  (src/libs/blocks-markdown-parser/src/lib/blocks-markdown-parser.ts).

  The TypeScript source is shallowly embedded below.  JavaScript strings are
  Lean `String`s, JavaScript `undefined`/`null` fields are `Option`s, thrown
  exceptions are `Except String` (carrying the thrown error message), and the
  single asynchronous side channel (the injected `getImageSize` lookup) is a
  pure function together with the chronological trace of the URLs it was
  called with.  Apostrophes and curly braces inside string literals are
  written with `\x27`, `\x7b`, `\x7d` escapes.
-/

namespace NotionBlocksMarkdownParser

/-- The `EOL_MD` constant (line 31 of the source). -/
def EOL_MD : String := "\n"

/-! Section: JavaScript string helpers

`String.prototype.replace(search, replacement)` with a *string* search
pattern replaces only the first occurrence, and interprets the substitution
patterns `$$`, `$&`, `` $` `` and `$\x27` inside the replacement string
(ECMA-262 GetSubstitution).  We model it faithfully on `List Char`. -/

/-- Predicate `matchesAt needle hay` is true when `needle` is a prefix of `hay`. -/
def matchesAt : List Char → List Char → Bool
  | [], _ => true
  | _ :: _, [] => false
  | n :: ns, h :: hs => n == h && matchesAt ns hs

/-- First occurrence of `needle` in a character list: returns the characters
before the match and the characters after it, or `none` if there is no
occurrence. -/
def findSplit (needle : List Char) : List Char → Option (List Char × List Char)
  | [] => if matchesAt needle [] then some ([], []) else none
  | c :: rest =>
    if matchesAt needle (c :: rest) then some ([], (c :: rest).drop needle.length)
    else (findSplit needle rest).map (fun p => (c :: p.1, p.2))

/-- ECMA-262 GetSubstitution for a plain string search pattern: expand the
dollar patterns of the replacement text (`matched` is the search string,
`before`/`after` the text around the match).  `Char.ofNat 96` is the
backquote and `Char.ofNat 39` the apostrophe. -/
def substPatterns (matched before after : List Char) : List Char → List Char
  | [] => []
  | c :: rest =>
    if c = '$' then
      match rest with
      | [] => [c]
      | d :: rest2 =>
        if d = '$' then d :: substPatterns matched before after rest2
        else if d = '&' then matched ++ substPatterns matched before after rest2
        else if d = Char.ofNat 96 then before ++ substPatterns matched before after rest2
        else if d = Char.ofNat 39 then after ++ substPatterns matched before after rest2
        else c :: d :: substPatterns matched before after rest2
    else c :: substPatterns matched before after rest

/-- JavaScript `s.replace(search, replacement)` with a string pattern. -/
def jsReplaceFirst (s search replacement : String) : String :=
  match findSplit search.data s.data with
  | none => s
  | some p => ⟨p.1 ++ substPatterns search.data p.1 p.2 replacement.data ++ p.2⟩

/-- JavaScript `s.toLowerCase()` (ASCII is all the source needs). -/
def jsToLower (s : String) : String := ⟨s.data.map Char.toLower⟩

/-- JavaScript `s.split("\n").join(ins)`: every newline character is replaced
by `ins` (equivalent to split-then-join for the one-character separator used
in the source, lines 195, 240 and 248). -/
def replaceNewlines (s ins : String) : String :=
  ⟨s.data.foldr (fun c acc => if c = '\n' then ins.data ++ acc else c :: acc) []⟩

/-! Section: Data model

Modelled from the spec: the block/rich-text types come from the
`@benlorantfy/notion-types` package of this repository, which is not under
`src/`; the spec's §3 data model (tagged unions for Block and RichText, a
fixed six-field annotations record, file references that are either external
or hosted) is followed.  Entries of the annotations object are iterated by
`Object.entries` in the object's key order, which for the API payload is the
declaration order bold, italic, strikethrough, underline, code, color; the
`Annotations` structure fixes that order. -/

/-- The six style fields of a rich-text span (spec §3). -/
structure Annotations where
  bold : Bool
  italic : Bool
  strikethrough : Bool
  underline : Bool
  code : Bool
  color : String

/-- A text span's link: either a direct URL value or a nested URL-bearing
object (both shapes are accepted by `annotateLink`, lines 433-440). -/
inductive TextLink where
  | direct (url : String)
  | nested (url : String)

/-- Rich-text tagged union (spec §3): `text`, `mention`, `equation`. -/
inductive RichText where
  | text (content : String) (link : Option TextLink) (annotations : Annotations)
      (plain_text : String)
  | mention (mtype : String) (plain_text : String) (annotations : Annotations)
  | equation (expression : String) (annotations : Annotations) (plain_text : String)

/-- The keys of the annotations record, in `Object.entries` order. -/
inductive AnnotationKey where
  | bold | italic | strikethrough | underline | code | color

/-- Function `annotateModifier` (lines 442-464): one wrapper per annotation key; the
color wrapper uses the `notion-color` attribute and is skipped for the
`default` color. -/
def annotateModifier (modifier : AnnotationKey) (originalContent : String)
    (color : String) : String :=
  match modifier with
  | .bold => "**" ++ originalContent ++ "**"
  | .italic => "_" ++ originalContent ++ "_"
  | .strikethrough => "~~" ++ originalContent ++ "~~"
  | .underline => "<u>" ++ originalContent ++ "</u>"
  | .code => "`" ++ originalContent ++ "`"
  | .color =>
    if color != "default" then
      "<span notion-color=\x27" ++ color ++ "\x27>" ++ originalContent ++ "</span>"
    else originalContent

/-- Entries list `Object.entries(annotations)` with each value's JavaScript truthiness:
the five booleans as themselves, the color string truthy iff non-empty. -/
def annotationEntries (a : Annotations) : List (AnnotationKey × Bool) :=
  [(.bold, a.bold), (.italic, a.italic), (.strikethrough, a.strikethrough),
   (.underline, a.underline), (.code, a.code), (.color, a.color != "")]

/-- Function `annotate` (lines 413-431): reduce over the entries, wrapping the
accumulated content whenever the entry's value is truthy. -/
def annotate (annotations : Annotations) (originalContent : String) : String :=
  (annotationEntries annotations).foldl
    (fun annotatedContent e =>
      if e.2 then annotateModifier e.1 annotatedContent annotations.color
      else annotatedContent)
    originalContent

/-- Function `annotateLink` (lines 433-440): `[content](target)` where the target is
`text.link.url ? text.link.url : text.link`.  On a direct string link the
`.url` access yields `undefined`, so the string itself is used; on a nested
object an empty (falsy) `url` falls back to interpolating the object, which
JavaScript renders as `[object Object]`. -/
def annotateLink (link : TextLink) (annotatedContent : String) : String :=
  "[" ++ annotatedContent ++ "](" ++
    (match link with
     | .direct url => url
     | .nested url => if url != "" then url else "[object Object]") ++ ")"

/-- JavaScript truthiness of `richText.text.link` (line 360): absent/null is
falsy, a direct empty string is falsy, any object is truthy. -/
def linkTruthy : TextLink → Bool
  | .direct url => url != ""
  | .nested _ => true

/-- Function `parseText` (lines 357-363), on the fields of a `text` span. -/
def parseText (content : String) (link : Option TextLink)
    (annotations : Annotations) : String :=
  let c := annotate annotations content
  match link with
  | some l => if linkTruthy l then annotateLink l c else c
  | none => c

/-- Function `parseMention` (lines 367-379): the switch over the mention sub-kind has
only empty cases, so every sub-kind renders the annotated plain text. -/
def parseMention (plain_text : String) (annotations : Annotations) : String :=
  annotate annotations plain_text

/-- Function `parseEquation` (lines 381-386). -/
def parseEquation (expression : String) (annotations : Annotations) : String :=
  annotate annotations ("$" ++ expression ++ "$")

/-- One arm of the `parseRichTexts` switch (lines 341-351). -/
def renderSpan : RichText → String
  | .text content link annotations _ => parseText content link annotations
  | .mention _ plain_text annotations => parseMention plain_text annotations
  | .equation expression annotations _ => parseEquation expression annotations

/-- Function `parseRichTexts` (lines 339-355): a left fold accumulating each span's
rendering. -/
def parseRichTexts (richTexts : List RichText) : String :=
  richTexts.foldl (fun parsedContent richText => parsedContent ++ renderSpan richText) ""

/-- A file value: `external` carries the URL under `external.url`, `file`
(the hosted variant) under `file.url`. -/
inductive FileRef where
  | external (url : String)
  | file (url : String)

/-- File value plus its optional caption rich-text sequence. -/
structure FileWithCaption where
  ref : FileRef
  caption : Option (List RichText)

/-- Result record of `parseFile`. -/
structure FileContents where
  caption : String
  url : String

/-- Function `parseFile` (lines 388-411): extract the URL from the matching variant;
the caption is the rendered caption sequence when one is present (a present
empty array is truthy in JavaScript and renders as the empty string), else
the URL itself. -/
def parseFile (f : FileWithCaption) : FileContents :=
  let url := match f.ref with
    | .external u => u
    | .file u => u
  let caption := match f.caption with
    | some cs => parseRichTexts cs
    | none => url
  ⟨caption, url⟩

/-- Callout icon (lines 208-220): emoji glyph, external image URL, or a
hosted file (the file case renders a fixed placeholder string). -/
inductive CalloutIcon where
  | emoji (emoji : String)
  | external (url : String)
  | file

/-- Function `getCalloutIcon` (lines 208-220). -/
def getCalloutIcon : CalloutIcon → String
  | .emoji e => "<span notion-callout-emoji>" ++ e ++ "</span>"
  | .external url =>
      "<img notion-callout-external src=\x27" ++ url ++
        "\x27 alt=\x27notion-callout-external-link\x27/>"
  | .file => "notion-callout-file"

/-- Resolved value of the injected `getImageSize` promise; a missing
dimension (`undefined` in JavaScript) is `none`. -/
structure ImageSize where
  width : Option Nat
  height : Option Nat

/-- JavaScript falsiness of `result.width` / `result.height` (line 284):
missing or zero. -/
def falsyNum : Option Nat → Bool
  | none => true
  | some n => n == 0

/-- Record `NotionBlocksMarkdownParserOptions` (lines 33-54), with the lookup
function optional because supplying it is what the configuration check at
line 278 tests. -/
structure Options where
  imageAsFigure : Bool
  addImageSizeToAltText : Bool
  getImageSize : Option (String → ImageSize)
  emptyParagraphToNonBreakingSpace : Bool

/-- The argument of `getInstance`/the private constructor: a record in which
every recognized option may be absent. -/
structure OptionsInput where
  imageAsFigure : Option Bool
  addImageSizeToAltText : Option Bool
  getImageSize : Option (String → ImageSize)
  emptyParagraphToNonBreakingSpace : Option Bool

/-- The private constructor (lines 60-66): spread the caller's options over
the defaults `imageAsFigure := true`, `emptyParagraphToNonBreakingSpace :=
false`.  `addImageSizeToAltText` has no default: when absent it is
`undefined`, which every use treats as `false`. -/
def mkParserOptions (options : Option OptionsInput) : Options :=
  let o := options.getD ⟨none, none, none, none⟩
  { imageAsFigure := o.imageAsFigure.getD true
    addImageSizeToAltText := o.addImageSizeToAltText.getD false
    getImageSize := o.getImageSize
    emptyParagraphToNonBreakingSpace := o.emptyParagraphToNonBreakingSpace.getD false }

/-- Function `getInstance` (lines 68-74): the module-level static `instance` field is
made explicit as a piece of state (`none` before the first call).  Returns
the parser handed to the caller (identified with its option record, the only
state a parser carries) and the updated static field. -/
def getInstance (instanceState : Option Options) (options : Option OptionsInput) :
    Options × Option Options :=
  match instanceState with
  | none => let p := mkParserOptions options; (p, some p)
  | some p => (p, some p)

/-! Section: Blocks

The block tree.  Every variant of the `type` union carries `has_children`
and, under its type-specific field, an optional `children` array (the walker
recurses iff `has_children` is truthy *and* the array is present, line 83; a
present empty array is truthy in JavaScript).  Kinds not handled by the
walker's dispatch (the Notion API has more, e.g. tables) are `other`. -/

/-- Kind-specific payload of a block. -/
inductive BlockCore where
  | paragraph (rich_text : List RichText)
  | heading (level : Nat) (rich_text : List RichText)
  | code (language : String) (rich_text : List RichText)
  | quote (rich_text : List RichText)
  | callout (rich_text : List RichText) (icon : CalloutIcon)
  | bulleted_list_item (rich_text : List RichText)
  | numbered_list_item (rich_text : List RichText)
  | to_do (checked : Bool) (rich_text : List RichText)
  | toggle (rich_text : List RichText)
  | image (image : FileWithCaption)
  | embed (url : String) (caption : Option (List RichText))
  | audio (audio : FileWithCaption)
  | video (video : FileWithCaption)
  | file (file : FileWithCaption)
  | pdf (pdf : FileWithCaption)
  | divider
  | unsupported
  | other

mutual
/-- One block: `has_children` flag, the nested `children` field, and the
kind-specific payload. -/
inductive Block where
  | mk (has_children : Bool) (children : ChildrenField) (core : BlockCore)

/-- The `children` field under the type-specific key: absent (`undefined`)
or a present array. -/
inductive ChildrenField where
  | undef
  | arr (blocks : BlockList)

/-- An ordered sequence of blocks. -/
inductive BlockList where
  | nil
  | cons (b : Block) (rest : BlockList)
end

/-- Concatenation of block sequences. -/
def appendBL : BlockList → BlockList → BlockList
  | .nil, l2 => l2
  | .cons b rest, l2 => .cons b (appendBL rest l2)

/-- The literal placeholder token of the toggle renderer. -/
def childToken : String := "\x7b\x7bchildBlock\x7d\x7d"

/-- Function `parseParagraph` (lines 172-185). -/
def parseParagraph (opts : Options) (rich_text : List RichText) : String :=
  let text :=
    if opts.emptyParagraphToNonBreakingSpace && rich_text.length == 0 then "&nbsp;"
    else parseRichTexts rich_text
  EOL_MD ++ text ++ EOL_MD

/-- Function `parseCodeBlock` (lines 187-191).  The source reads
`codeBlock.code.rich_text[0].text.content` with no guard: when the sequence
is empty, or its first run is not a `text` run, the access throws a
TypeError; that error branch is `none` here. -/
def parseCodeBlock (language : String) (rich_text : List RichText) : Option String :=
  match rich_text with
  | .text content _ _ _ :: _ =>
      some ("```" ++ jsToLower language ++ "\n" ++ content ++ "\n```" ++ EOL_MD)
  | _ => none

/-- Error used when `parseCodeBlock`'s unguarded access throws. -/
def firstRichTextMsg : String :=
  "TypeError: Cannot read properties of undefined (reading content)"

/-- Function `parseQuoteBlock` (lines 193-198). -/
def parseQuoteBlock (rich_text : List RichText) : String :=
  EOL_MD ++ "> " ++ replaceNewlines (parseRichTexts rich_text) "\n> " ++ EOL_MD

/-- Function `parseCalloutBlock` (lines 200-226). -/
def parseCalloutBlock (rich_text : List RichText) (icon : CalloutIcon) : String :=
  let callout := "<div notion-callout>\n  \x7b\x7bicon\x7d\x7d\n  <span notion-callout-text>\n    "
    ++ parseRichTexts rich_text ++ "\n  </span>\n</div>"
  EOL_MD ++ jsReplaceFirst callout "\x7b\x7bicon\x7d\x7d" (getCalloutIcon icon) ++ EOL_MD

/-- Function `parseHeading` (lines 228-235). -/
def parseHeading (headingLevel : Nat) (rich_text : List RichText) : String :=
  EOL_MD ++ String.mk (List.replicate headingLevel '#') ++ " "
    ++ parseRichTexts rich_text ++ EOL_MD

/-- Function `parseBulletedListItems` (lines 237-243). -/
def parseBulletedListItems (rich_text : List RichText) : String :=
  "* " ++ replaceNewlines (parseRichTexts rich_text) "\n    " ++ EOL_MD

/-- Function `parseNumberedListItems` (lines 245-251). -/
def parseNumberedListItems (rich_text : List RichText) : String :=
  "1. " ++ replaceNewlines (parseRichTexts rich_text) "\n    " ++ EOL_MD

/-- Function `parseTodoBlock` (lines 253-258). -/
def parseTodoBlock (checked : Bool) (rich_text : List RichText) : String :=
  "- [" ++ (if checked then "x" else " ") ++ "] " ++ parseRichTexts rich_text ++ EOL_MD

/-- Function `parseToggleBlock` (lines 260-264): the collapsible wrapper with the
literal placeholder token as its body. -/
def parseToggleBlock (rich_text : List RichText) : String :=
  "<details><summary>" ++ parseRichTexts rich_text
    ++ "</summary>\x7b\x7bchildBlock\x7d\x7d</details>"

/-- Message of the error thrown at line 279 (the ConfigurationError of the
spec's §7 taxonomy). -/
def getImageSizeRequiredMsg : String :=
  "parserOptions.getImageSize is required if parserOptions.addImageSizeToAltText is true"

/-- Message of the error thrown at line 285 (the ValidationError of the
spec's §7 taxonomy). -/
def widthHeightMsg : String := "Could not find width/height for image"

/-- Function `parseImageBlock` (lines 266-291).  Besides the rendered text, the
result carries the chronological trace of URLs passed to the injected
`getImageSize` lookup on this call. -/
def parseImageBlock (opts : Options) (image : FileWithCaption) :
    Except String (String × List String) :=
  let fc := parseFile image
  if opts.imageAsFigure then
    .ok (EOL_MD ++ "<figure notion-figure>\n  <img src=\x27" ++ fc.url ++ "\x27 alt=\x27"
      ++ fc.caption ++ "\x27>\n  <figcaption notion-figcaption>" ++ fc.caption
      ++ "</figcaption>\n</figure>\n" ++ EOL_MD, [])
  else if opts.addImageSizeToAltText then
    match opts.getImageSize with
    | none => .error getImageSizeRequiredMsg
    | some f =>
      let r := f fc.url
      if falsyNum r.width || falsyNum r.height then .error widthHeightMsg
      else
        .ok ("![" ++ fc.caption ++ "|" ++ toString (r.width.getD 0) ++ "x"
          ++ toString (r.height.getD 0) ++ "](" ++ fc.url ++ ")" ++ EOL_MD, [fc.url])
  else .ok ("![" ++ fc.caption ++ "](" ++ fc.url ++ ")" ++ EOL_MD, [])

/-- Function `parseAudioBlock` (lines 293-296); note: no trailing line break in the
source. -/
def parseAudioBlock (audio : FileWithCaption) : String :=
  let fc := parseFile audio
  "![" ++ fc.caption ++ "](" ++ fc.url ++ ")"

/-- Function `parseVideoBlock` (lines 298-308).  `pvu` is `processExternalVideoUrl`
(modelled from the spec, §6: the video URL resolver is an external
collaborator, `resolveVideoEmbed(url) -> (handled, fragmentOrUrl)`; its
heuristic is out of the repository's `src/`). -/
def parseVideoBlock (pvu : String → Bool × String) (video : FileWithCaption) : String :=
  let fc := parseFile video
  let pr := pvu fc.url
  if pr.1 then EOL_MD ++ pr.2 ++ EOL_MD
  else "To be supported: " ++ fc.url ++ " with " ++ fc.caption ++ EOL_MD

/-- Function `parseFileBlock` (lines 310-313). -/
def parseFileBlock (file : FileWithCaption) : String :=
  let fc := parseFile file
  "To be supported: " ++ fc.url ++ " with " ++ fc.caption ++ EOL_MD

/-- Function `parsePdfBlock` (lines 315-323). -/
def parsePdfBlock (pdf : FileWithCaption) : String :=
  let fc := parseFile pdf
  EOL_MD ++ "<figure>\n  <object data=\x27" ++ fc.url
    ++ "\x27 type=\x27application/pdf\x27></object>\n  <figcaption>" ++ fc.caption
    ++ "</figcaption>\n</figure>\n" ++ EOL_MD

/-- Function `parseEmbedBlock` (lines 325-337); a present caption array (even empty)
is truthy and selects the figure branch. -/
def parseEmbedBlock (url : String) (caption : Option (List RichText)) : String :=
  let embedded := "<iframe src=\x27" ++ url ++ "\x27></iframe>"
  match caption with
  | some cs =>
      EOL_MD ++ "<figure>\n  " ++ embedded ++ "\n  <figcaption>" ++ parseRichTexts cs
        ++ "</figcaption>\n</figure>" ++ EOL_MD
  | none => embedded ++ EOL_MD

mutual
/-- The loop body of `parse` (lines 79-167): renders each block in document
order and accumulates the markdown (without the final line break of line
169) together with the chronological trace of `getImageSize` calls. -/
def parseBlocks (opts : Options) (pvu : String → Bool × String) :
    BlockList → Nat → Except String (String × List String)
  | .nil, _ => .ok ("", [])
  | .cons b rest, depth =>
    match parseOne opts pvu b depth with
    | .error e => .error e
    | .ok pb =>
      match parseBlocks opts pvu rest depth with
      | .error e => .error e
      | .ok pr => .ok (pb.1 ++ pr.1, pb.2 ++ pr.2)

/-- One iteration of the loop of `parse`: children are rendered first
(lines 82-85), then the block dispatches on its kind.  The `childBlockString`
is appended after the block's own text, except for `toggle`, where it is
substituted for the first occurrence of the placeholder token (lines
133-138), and for unrecognized kinds, which append nothing. -/
def parseOne (opts : Options) (pvu : String → Bool × String) :
    Block → Nat → Except String (String × List String)
  | .mk hc children core, depth =>
    match parseChildren opts pvu hc children depth with
    | .error e => .error e
    | .ok pc =>
    let childBlockString := pc.1
    let indentStr := String.mk (List.replicate depth ' ')
    match core with
    | .unsupported =>
        .ok (indentStr ++ "NotionAPI Unsupported" ++ EOL_MD ++ EOL_MD ++ childBlockString,
          pc.2)
    | .paragraph rt => .ok (indentStr ++ parseParagraph opts rt ++ childBlockString, pc.2)
    | .code lang rt =>
      match parseCodeBlock lang rt with
      | some s => .ok (indentStr ++ s ++ childBlockString, pc.2)
      | none => .error firstRichTextMsg
    | .quote rt => .ok (indentStr ++ parseQuoteBlock rt ++ childBlockString, pc.2)
    | .callout rt icon => .ok (indentStr ++ parseCalloutBlock rt icon ++ childBlockString, pc.2)
    | .heading lvl rt => .ok (indentStr ++ parseHeading lvl rt ++ childBlockString, pc.2)
    | .bulleted_list_item rt =>
        .ok (indentStr ++ parseBulletedListItems rt ++ childBlockString, pc.2)
    | .numbered_list_item rt =>
        .ok (indentStr ++ parseNumberedListItems rt ++ childBlockString, pc.2)
    | .to_do checked rt => .ok (indentStr ++ parseTodoBlock checked rt ++ childBlockString, pc.2)
    | .toggle rt =>
        .ok (indentStr ++ jsReplaceFirst (parseToggleBlock rt) childToken childBlockString,
          pc.2)
    | .image img =>
        match parseImageBlock opts img with
        | .error e => .error e
        | .ok pi => .ok (indentStr ++ pi.1 ++ childBlockString, pc.2 ++ pi.2)
    | .embed url caption => .ok (indentStr ++ parseEmbedBlock url caption ++ childBlockString, pc.2)
    | .audio a => .ok (indentStr ++ parseAudioBlock a ++ childBlockString, pc.2)
    | .video v => .ok (indentStr ++ parseVideoBlock pvu v ++ childBlockString, pc.2)
    | .file f => .ok (indentStr ++ parseFileBlock f ++ childBlockString, pc.2)
    | .pdf p => .ok (indentStr ++ parsePdfBlock p ++ childBlockString, pc.2)
    | .divider => .ok (indentStr ++ EOL_MD ++ "---" ++ EOL_MD ++ childBlockString, pc.2)
    | .other => .ok ("", pc.2)

/-- Condition `childBlock.has_children && childBlock[childBlock.type].children` (line
83): recurse (a full `parse` call, hence the trailing line break of line
169) only when the flag is truthy and the array is present. -/
def parseChildren (opts : Options) (pvu : String → Bool × String) :
    Bool → ChildrenField → Nat → Except String (String × List String)
  | true, .arr blocks, depth =>
      match parseBlocks opts pvu blocks (depth + 2) with
      | .error e => .error e
      | .ok pr => .ok (pr.1 ++ EOL_MD, pr.2)
  | _, _, _ => .ok ("", [])
end

/-- Function `parse` (lines 76-170): the loop followed by the final
`markdown.concat(EOL_MD)`. -/
def parse (opts : Options) (pvu : String → Bool × String) (blocks : BlockList)
    (depth : Nat) : Except String (String × List String) :=
  match parseBlocks opts pvu blocks depth with
  | .error e => .error e
  | .ok pr => .ok (pr.1 ++ EOL_MD, pr.2)

/-- All-false annotations with the `default` color. -/
def annDefault : Annotations := ⟨false, false, false, false, false, "default"⟩

/-- A trivial video resolver: never handled, passes the URL through. -/
def pvu0 : String → Bool × String := fun u => (false, u)

/-- Options as constructed with no argument: figure rendering on, no image
sizing, no lookup. -/
def optsPlain : Options := ⟨true, false, none, false⟩

example : annotate ⟨true, true, false, false, false, "default"⟩ "x" = "_**x**_" := by decide
example : annotate ⟨false, false, false, false, false, "red"⟩ "x" =
    "<span notion-color=\x27red\x27>x</span>" := by decide
example : parseText "x" (some (.nested "")) annDefault = "[x]([object Object])" := by decide
example : parseText "x" (some (.direct "")) annDefault = "x" := by decide
example : jsReplaceFirst "abcbc" "bc" "X" = "aXbc" := by decide
example : jsReplaceFirst "ab" "b" "$&$&" = "abb" := by decide

example : parse optsPlain pvu0 .nil 0 = .ok ("\n", []) := rfl

example :
    parse optsPlain pvu0
      (.cons (.mk false .undef (.paragraph [.text "hi" none annDefault "hi"])) .nil) 0 =
      .ok ("\nhi\n\n", []) := rfl

example :
    parse optsPlain pvu0
      (.cons (.mk true (.arr (.cons (.mk false .undef
          (.paragraph [.text "hi" none annDefault "hi"])) .nil))
        (.toggle [.text "t" none annDefault "t"])) .nil) 0 =
      .ok ("<details><summary>t</summary>  \nhi\n\n</details>\n", []) := rfl

example :
    parse ⟨false, true, some (fun _ => ⟨some 10, some 20⟩), false⟩ pvu0
      (.cons (.mk false .undef
        (.image ⟨.external "u", some [.text "cap" none annDefault "cap"]⟩)) .nil) 0 =
      .ok ("![cap|10x20](u)\n\n", ["u"]) := rfl

/-! Section: Claim C1 -/

/-- Claim C1, counterexample: the color wrapper written by the code uses a
`notion-color` attribute, not the `data-color` attribute the claim states;
moreover an empty color string is falsy and is skipped entirely, where the
claim (color different from `default`) would demand a wrapper. -/
theorem annotate_data_color_cex :
    annotate ⟨false, false, false, false, false, "red"⟩ "x" ≠
      "<span data-color=\x27red\x27>x</span>" ∧
    annotate ⟨false, false, false, false, false, ""⟩ "x" ≠
      "<span data-color=\x27\x27>x</span>" := by
  constructor <;> decide

/-- Claim C1 (amended): for every annotations record and content string,
`annotate` wraps in the fixed order bold, italic, strikethrough, underline,
code, color — each later truthy key wrapping the previous result more
tightly — with wrappers bold→`**x**`, italic→`_x_`, strikethrough→`~~x~~`,
underline→`<u>x</u>`, code→backquoted, and, only when the color is neither
`default` nor empty, color→`<span notion-color=...>x</span>`; in particular
bold+italic on `"x"` yields `"_**x**_"`. -/
theorem annotate_order_spec :
    (∀ (a : Annotations) (content : String),
      annotate a content =
        (let s1 := if a.bold then "**" ++ content ++ "**" else content
         let s2 := if a.italic then "_" ++ s1 ++ "_" else s1
         let s3 := if a.strikethrough then "~~" ++ s2 ++ "~~" else s2
         let s4 := if a.underline then "<u>" ++ s3 ++ "</u>" else s3
         let s5 := if a.code then "`" ++ s4 ++ "`" else s4
         if a.color != "" && a.color != "default" then
           "<span notion-color=\x27" ++ a.color ++ "\x27>" ++ s5 ++ "</span>"
         else s5)) ∧
    annotate ⟨true, true, false, false, false, "default"⟩ "x" = "_**x**_" := by
  refine ⟨?_, by decide⟩
  intro a content
  obtain ⟨b, i, s, u, c, col⟩ := a
  by_cases h1 : col = "" <;> by_cases h2 : col = "default" <;>
    cases b <;> cases i <;> cases s <;> cases u <;> cases c <;>
      simp_all [annotate, annotationEntries, annotateModifier, bne_iff_ne]

/-! Section: Claims C5 and C9 -/

/-- Claim C5, counterexample: a code block with one rich-text run whose
first run is not a `text` run does not produce a fenced block — the
unguarded `rich_text[0].text.content` access fails. -/
theorem parseCodeBlock_mention_cex :
    parseCodeBlock "JavaScript" [.mention "user" "someone" annDefault] = none := rfl

/-- Claim C5 (amended): for every code block whose first rich-text run is a
`text` run, the renderer outputs a fenced block whose info string is the
language tag lowercased (the empty tag giving an empty info string) and
whose body is only the first run's raw content — any additional runs are
dropped — followed by a line break. -/
theorem parseCodeBlock_spec (language content : String) (link : Option TextLink)
    (a : Annotations) (pt : String) (rest : List RichText) :
    parseCodeBlock language (.text content link a pt :: rest) =
      some ("```" ++ jsToLower language ++ "\n" ++ content ++ "\n```" ++ EOL_MD) := rfl

example :
    parseCodeBlock "JavaScript" [.text "let x = 1;" none annDefault "let x = 1;"] =
      some ("```javascript\nlet x = 1;\n```\n") := by decide

/-- Claim C9: the code renderer indexes the first rich-text run without a
guard; on an empty sequence the embedded renderer takes the error branch
(`none`), so rendering fails rather than producing a string — it is total
only under the precondition that the sequence is non-empty. -/
theorem parseCodeBlock_empty_fails (language : String) :
    parseCodeBlock language [] = none := rfl

/-! Section: Claim C7 -/

/-- Claim C7, counterexample: with an empty URL the two link
representations do not resolve to the same anchor target — a direct empty
URL is falsy, so the span is not wrapped at all, while a nested empty URL
falls back to interpolating the link object, producing `[object Object]`;
the claim would demand `[x]()` in both cases. -/
theorem parseText_empty_link_cex :
    parseText "x" (some (.nested "")) annDefault = "[x]([object Object])" ∧
    parseText "x" (some (.direct "")) annDefault = "x" ∧
    ("[x]([object Object])" : String) ≠ "[x]()" ∧ ("x" : String) ≠ "[x]()" :=
  ⟨rfl, rfl, by decide, by decide⟩

/-- Claim C7 (amended): for every text span carrying a link with a
*non-empty* URL, the rendered result is the annotated content wrapped as
`[annotated](target)`, and the target is the same URL whether the link is a
direct URL value or a nested URL-bearing object; a span with no link
renders as the annotated content alone. -/
theorem parseText_link_spec (content : String) (a : Annotations) (u : String)
    (h : u ≠ "") :
    parseText content (some (.direct u)) a =
      "[" ++ annotate a content ++ "](" ++ u ++ ")" ∧
    parseText content (some (.nested u)) a =
      "[" ++ annotate a content ++ "](" ++ u ++ ")" ∧
    parseText content none a = annotate a content := by
  refine ⟨?_, ?_, rfl⟩ <;> simp [parseText, linkTruthy, annotateLink, bne_iff_ne, h]

/-- Witness for `parseText_link_spec` at the concrete URL `"u"`. -/
theorem parseText_link_spec_witness :
    ("u" : String) ≠ "" ∧
    (parseText "x" (some (.direct "u")) annDefault =
        "[" ++ annotate annDefault "x" ++ "](" ++ "u" ++ ")" ∧
      parseText "x" (some (.nested "u")) annDefault =
        "[" ++ annotate annDefault "x" ++ "](" ++ "u" ++ ")" ∧
      parseText "x" none annDefault = annotate annDefault "x") :=
  ⟨by decide, parseText_link_spec "x" annDefault "u" (by decide)⟩

/-! Section: Claim C8 -/

/-- Claim C8: file resolution extracts the URL from the matching variant's
`url` field, and the caption is the rendered rich text of the caption
sequence when present, else the URL itself; `parseAudioBlock` is one of the
renderers consuming the resolved pair. -/
theorem parseFile_spec (r : FileRef) (copt : Option (List RichText)) :
    (parseFile ⟨r, copt⟩).url = (match r with | .external u => u | .file u => u) ∧
    (parseFile ⟨r, copt⟩).caption =
      (match copt with
       | some cs => parseRichTexts cs
       | none => (parseFile ⟨r, copt⟩).url) ∧
    (∀ f : FileWithCaption,
      parseAudioBlock f = "![" ++ (parseFile f).caption ++ "](" ++ (parseFile f).url ++ ")") := by
  refine ⟨?_, ?_, fun f => rfl⟩ <;> cases r <;> cases copt <;> rfl

/-! Section: Claim C3 -/

/-- A concrete image block value: external URL `u`, caption `cap`. -/
def img0 : FileWithCaption := ⟨.external "u", some [.text "cap" none annDefault "cap"]⟩

/-- A concrete size lookup resolving every URL to width 10, height 20. -/
def sz1020 : String → ImageSize := fun _ => ⟨some 10, some 20⟩

/-- Claim C3: with `imageAsFigure = false` and `addImageSizeToAltText =
true`: if no `getImageSize` function was supplied the render fails with the
configuration error (and a whole-document render containing the image block
fails the same way, producing no text); if the lookup resolves with a
missing or zero width or height the render fails with the validation error;
otherwise the block renders as `![caption|WIDTHxHEIGHT](url)` followed by a
line break, carrying the URL in the lookup trace. -/
theorem parseImageBlock_size_path (gis : Option (String → ImageSize)) (epn : Bool)
    (img : FileWithCaption) (pvu : String → Bool × String) :
    (gis = none →
      parseImageBlock ⟨false, true, gis, epn⟩ img = .error getImageSizeRequiredMsg) ∧
    (gis = none → ∀ (depth : Nat) (rest : BlockList),
      parseBlocks ⟨false, true, gis, epn⟩ pvu
          (.cons (.mk false .undef (.image img)) rest) depth =
        .error getImageSizeRequiredMsg) ∧
    (∀ f, gis = some f →
      (falsyNum (f (parseFile img).url).width ||
        falsyNum (f (parseFile img).url).height) = true →
      parseImageBlock ⟨false, true, gis, epn⟩ img = .error widthHeightMsg) ∧
    (∀ f w h, gis = some f →
      (f (parseFile img).url).width = some w → (f (parseFile img).url).height = some h →
      w ≠ 0 → h ≠ 0 →
      parseImageBlock ⟨false, true, gis, epn⟩ img =
        .ok ("![" ++ (parseFile img).caption ++ "|" ++ toString w ++ "x" ++ toString h
          ++ "](" ++ (parseFile img).url ++ ")" ++ EOL_MD, [(parseFile img).url])) := by
  refine ⟨?_, ?_, ?_, ?_⟩
  · rintro rfl; rfl
  · rintro rfl depth rest; rfl
  · rintro f rfl hfal
    simp [parseImageBlock, hfal]
  · rintro f w h rfl hw hh hw0 hh0
    simp [parseImageBlock, falsyNum, hw, hh, hw0, hh0]

/-- Witness for `parseImageBlock_size_path`: the lookup resolving to
`(10, 20)` yields `![cap|10x20](u)` plus a line break, and the missing
lookup yields the configuration error. -/
theorem parseImageBlock_size_path_witness :
    parseImageBlock ⟨false, true, some sz1020, false⟩ img0 =
      .ok ("![" ++ (parseFile img0).caption ++ "|" ++ toString 10 ++ "x" ++ toString 20
        ++ "](" ++ (parseFile img0).url ++ ")" ++ EOL_MD, [(parseFile img0).url]) ∧
    parseImageBlock ⟨false, true, none, false⟩ img0 = .error getImageSizeRequiredMsg :=
  ⟨(parseImageBlock_size_path (some sz1020) false img0 pvu0).2.2.2 sz1020 10 20 rfl rfl
      rfl (by decide) (by decide),
    (parseImageBlock_size_path none false img0 pvu0).1 rfl⟩

example : parseImageBlock ⟨false, true, some sz1020, false⟩ img0 =
    .ok ("![cap|10x20](u)\n", ["u"]) := rfl
example : parseImageBlock ⟨false, true, some (fun _ => ⟨some 0, some 20⟩), false⟩ img0 =
    .error widthHeightMsg := rfl

/-! Section: Claim C6 -/

/-- Appending two all-successful renders: the loop of `parse` distributes
over concatenation of block sequences, in document order. -/
theorem parseBlocks_append_of_ok (opts : Options) (pvu : String → Bool × String)
    (depth : Nat) (l2 : BlockList) :
    ∀ (l1 : BlockList) (m1 : String) (t1 : List String) (m2 : String) (t2 : List String),
      parseBlocks opts pvu l1 depth = .ok (m1, t1) →
      parseBlocks opts pvu l2 depth = .ok (m2, t2) →
      parseBlocks opts pvu (appendBL l1 l2) depth = .ok (m1 ++ m2, t1 ++ t2)
  | .nil, m1, t1, m2, t2, h1, h2 => by
      simp only [parseBlocks] at h1
      cases h1
      simpa [appendBL] using h2
  | .cons b rest, m1, t1, m2, t2, h1, h2 => by
      rw [parseBlocks] at h1
      cases hpb : parseOne opts pvu b depth with
      | error e => rw [hpb] at h1; exact absurd h1 (by simp)
      | ok pb =>
        rw [hpb] at h1
        cases hpr : parseBlocks opts pvu rest depth with
        | error e => rw [hpr] at h1; exact absurd h1 (by simp)
        | ok pr =>
          rw [hpr] at h1
          simp only [Except.ok.injEq, Prod.mk.injEq] at h1
          obtain ⟨hm, ht⟩ := h1
          subst hm; subst ht
          have ih := parseBlocks_append_of_ok opts pvu depth l2 rest pr.1 pr.2 m2 t2
            (by simpa using hpr) h2
          rw [appendBL, parseBlocks, hpb, ih]
          simp [String.append_assoc, List.append_assoc]

/-- Claim C6: `parse` of the empty sequence is exactly one line break; the
rendered text of a concatenation of (successfully rendered) sequences is
the document-order concatenation of the renders; and a block whose kind is
not among the enumerated ones contributes nothing — it is silently skipped,
never an error (its children, when present and successfully rendered, are
still walked for side effects but their text is dropped). -/
theorem parse_concat_skip :
    (∀ (opts : Options) (pvu : String → Bool × String) (depth : Nat),
      parse opts pvu .nil depth = .ok ("\n", [])) ∧
    (∀ (opts : Options) (pvu : String → Bool × String) (depth : Nat)
        (l1 l2 : BlockList) (m1 : String) (t1 : List String) (m2 : String)
        (t2 : List String),
      parseBlocks opts pvu l1 depth = .ok (m1, t1) →
      parseBlocks opts pvu l2 depth = .ok (m2, t2) →
      parseBlocks opts pvu (appendBL l1 l2) depth = .ok (m1 ++ m2, t1 ++ t2)) ∧
    (∀ (opts : Options) (pvu : String → Bool × String) (hc : Bool) (depth : Nat),
      parseOne opts pvu (.mk hc .undef .other) depth = .ok ("", [])) ∧
    (∀ (opts : Options) (pvu : String → Bool × String) (hc : Bool)
        (ch : ChildrenField) (depth : Nat) (s : String) (t : List String),
      parseChildren opts pvu hc ch depth = .ok (s, t) →
      parseOne opts pvu (.mk hc ch .other) depth = .ok ("", t)) := by
  refine ⟨fun _ _ _ => rfl, fun opts pvu depth l1 l2 m1 t1 m2 t2 h1 h2 =>
    parseBlocks_append_of_ok opts pvu depth l2 l1 m1 t1 m2 t2 h1 h2, ?_, ?_⟩
  · intro opts pvu hc depth
    cases hc <;> rfl
  · intro opts pvu hc ch depth s t h
    rw [parseOne, h]

/-- Witness for `parse_concat_skip` at concrete inputs. -/
theorem parse_concat_skip_witness :
    parse optsPlain pvu0 .nil 0 = .ok ("\n", []) ∧
    parseBlocks optsPlain pvu0 (appendBL .nil .nil) 0 = .ok ("" ++ "", [] ++ []) ∧
    parseOne optsPlain pvu0 (.mk false .undef .other) 0 = .ok ("", []) ∧
    parseOne optsPlain pvu0 (.mk true (.arr .nil) .other) 0 = .ok ("", []) :=
  ⟨parse_concat_skip.1 optsPlain pvu0 0,
    parse_concat_skip.2.1 optsPlain pvu0 0 .nil .nil "" [] "" [] rfl rfl,
    parse_concat_skip.2.2.1 optsPlain pvu0 false 0,
    parse_concat_skip.2.2.2 optsPlain pvu0 true (.arr .nil) 0 "\n" [] rfl⟩

/-! Section: Claim C2 -/

/-- A non-empty needle matches at the front of `needle ++ post`. -/
theorem matchesAt_append_self : ∀ (n post : List Char), matchesAt n (n ++ post) = true
  | [], _ => rfl
  | c :: ns, post => by simp [matchesAt, matchesAt_append_self ns post]

/-- If a (non-empty) needle occurs at position `pre.length` of
`pre ++ needle ++ post` and at no earlier position, `findSplit` splits
exactly there. -/
theorem findSplit_at (n : Char) (ns post : List Char) :
    ∀ (pre : List Char),
      (∀ i, i < pre.length →
        matchesAt (n :: ns) ((pre ++ (n :: ns) ++ post).drop i) = false) →
      findSplit (n :: ns) (pre ++ (n :: ns) ++ post) = some (pre, post)
  | [], _ => by
      simp only [List.nil_append]
      rw [show (n :: ns) ++ post = n :: (ns ++ post) from rfl]
      rw [findSplit]
      have hm : matchesAt (n :: ns) (n :: (ns ++ post)) = true := by
        simpa using matchesAt_append_self (n :: ns) post
      simp [hm, List.drop_succ_cons, List.drop_left]
  | c :: pre', h => by
      have h0 : matchesAt (n :: ns) (c :: (pre' ++ (n :: ns) ++ post)) = false := by
        simpa using h 0 (by simp)
      have hrest : ∀ i, i < pre'.length →
          matchesAt (n :: ns) ((pre' ++ (n :: ns) ++ post).drop i) = false := by
        intro i hi
        simpa [List.drop_succ_cons] using h (i + 1) (by simpa using Nat.succ_lt_succ hi)
      have ih := findSplit_at n ns post pre' hrest
      rw [show (c :: pre') ++ (n :: ns) ++ post = c :: (pre' ++ (n :: ns) ++ post) from rfl]
      rw [findSplit]
      simp only [List.cons_append, List.append_assoc] at h0 ih ⊢
      simp [h0, ih]

/-- A replacement containing no dollar sign is substituted literally. -/
theorem substPatterns_no_dollar :
    ∀ (repl m b a : List Char), (∀ c ∈ repl, c ≠ '$') → substPatterns m b a repl = repl
  | [], _, _, _, _ => rfl
  | c :: rest, m, b, a, h => by
      have hc : c ≠ '$' := h c (by simp)
      have ih := substPatterns_no_dollar rest m b a (fun d hd => h d (by simp [hd]))
      rw [substPatterns.eq_def]
      simp [hc, ih]

/-- Filling the hole of a wrapper `pre ++ token ++ post`: when the token
does not occur before the hole and the filling contains no dollar sign,
JavaScript `replace` yields exactly `pre ++ B ++ post`. -/
theorem jsReplaceFirst_hole (preS postS B token : String) (n : Char) (ns : List Char)
    (htok : token.data = n :: ns)
    (h : ∀ i, i < preS.data.length →
      matchesAt token.data ((preS.data ++ token.data ++ postS.data).drop i) = false)
    (hB : ∀ c ∈ B.data, c ≠ '$') :
    jsReplaceFirst (preS ++ token ++ postS) token B = preS ++ B ++ postS := by
  have hdata : (preS ++ token ++ postS).data = preS.data ++ token.data ++ postS.data := by
    simp [String.data_append]
  rw [jsReplaceFirst]
  rw [hdata, htok]
  rw [findSplit_at n ns postS.data preS.data (by simpa [htok] using h)]
  apply String.ext
  simp [String.data_append, substPatterns_no_dollar _ _ _ _ hB]

/-- Claim C2 (amended): for every toggle block whose children and following
blocks render successfully, the walker's output for the block is
`<details><summary>S</summary>B</details>` (indented by the depth) where `S`
is the rendered rich text of the toggle and `B` is the full recursive render
of its children at depth + 2 — *provided* the placeholder token does not
occur in the wrapper before the hole (in particular the summary does not
contain it) and the child render contains no dollar sign (JavaScript
`replace` substitutes only the first occurrence of the token and expands
dollar patterns in the replacement). -/
theorem parse_toggle_spec (opts : Options) (pvu : String → Bool × String)
    (rt : List RichText) (ch : BlockList) (rest : BlockList) (depth : Nat)
    (B : String) (trB : List String) (mdR : String) (trR : List String)
    (hch : parseChildren opts pvu true (.arr ch) depth = .ok (B, trB))
    (hrest : parseBlocks opts pvu rest depth = .ok (mdR, trR))
    (hno : ∀ i,
      i < ("<details><summary>" ++ parseRichTexts rt ++ "</summary>").data.length →
      matchesAt childToken.data ((parseToggleBlock rt).data.drop i) = false)
    (hB : ∀ c ∈ B.data, c ≠ '$') :
    parseBlocks opts pvu (.cons (.mk true (.arr ch) (.toggle rt)) rest) depth =
      .ok (String.mk (List.replicate depth ' ')
        ++ ("<details><summary>" ++ parseRichTexts rt ++ "</summary>" ++ B ++ "</details>")
        ++ mdR, trB ++ trR) := by
  have hdecomp : parseToggleBlock rt =
      ("<details><summary>" ++ parseRichTexts rt ++ "</summary>") ++ childToken
        ++ "</details>" := by
    apply String.ext
    simp only [parseToggleBlock, childToken, String.data_append, List.append_assoc]
    norm_num
  have hrepl : jsReplaceFirst (parseToggleBlock rt) childToken B =
      ("<details><summary>" ++ parseRichTexts rt ++ "</summary>") ++ B ++ "</details>" := by
    rw [hdecomp]
    apply jsReplaceFirst_hole _ _ _ _ (Char.ofNat 123) (childToken.data.drop 1) (by decide)
    · intro i hi
      have := hno i (by simpa using hi)
      rw [hdecomp] at this
      simpa [String.data_append] using this
    · exact hB
  have hone : parseOne opts pvu (.mk true (.arr ch) (.toggle rt)) depth =
      .ok (String.mk (List.replicate depth ' ')
        ++ jsReplaceFirst (parseToggleBlock rt) childToken B, trB) := by
    rw [parseOne, hch]
  rw [parseBlocks, hone, hrest, hrepl]

/-- Witness for `parse_toggle_spec` at a concrete toggle block. -/
theorem parse_toggle_spec_witness :
    parseBlocks optsPlain pvu0
      (.cons (.mk true (.arr .nil) (.toggle [.text "t" none annDefault "t"])) .nil) 0 =
      .ok (String.mk (List.replicate 0 ' ')
        ++ ("<details><summary>" ++ parseRichTexts [.text "t" none annDefault "t"]
          ++ "</summary>" ++ "\n" ++ "</details>") ++ "", [] ++ []) :=
  parse_toggle_spec optsPlain pvu0 [.text "t" none annDefault "t"] .nil .nil 0 "\n" [] "" []
    rfl rfl (by decide) (by decide)

/-- Claim C2, counterexample: when the toggle's rich text itself renders to
the literal placeholder token, the walker's single first-occurrence
substitution lands inside the summary, and the placeholder leaks into the
final output — the output is not of the claimed
`<details><summary>S</summary>B</details>` shape. -/
theorem parse_toggle_leak_cex :
    parseBlocks optsPlain pvu0
      (.cons (.mk true
        (.arr (.cons (.mk false .undef (.paragraph [.text "hi" none annDefault "hi"]))
          .nil))
        (.toggle [.text "\x7b\x7bchildBlock\x7d\x7d" none annDefault ""])) .nil) 0 =
      .ok ("<details><summary>  \nhi\n\n</summary>\x7b\x7bchildBlock\x7d\x7d</details>",
        []) ∧
    ("<details><summary>  \nhi\n\n</summary>\x7b\x7bchildBlock\x7d\x7d</details>" : String) ≠
      "<details><summary>\x7b\x7bchildBlock\x7d\x7d</summary>" ++ "  \nhi\n\n"
        ++ "</details>" := by
  exact ⟨rfl, by decide⟩

/-! Section: Claim C4 -/

mutual
/-- Post-order sequence of resolved image URLs of a block sequence: for each
block, the URLs inside its children come before the block's own URL —
matching the walker, which renders children before the block itself. -/
def imageUrlsPostList : BlockList → List String
  | .nil => []
  | .cons b rest => imageUrlsPostBlock b ++ imageUrlsPostList rest

/-- Post-order image URLs of one block. -/
def imageUrlsPostBlock : Block → List String
  | .mk hc ch core =>
    imageUrlsPostChildren hc ch ++
      (match core with | .image f => [(parseFile f).url] | _ => [])

/-- Post-order image URLs of a children field (walked iff the flag is set
and the array is present). -/
def imageUrlsPostChildren : Bool → ChildrenField → List String
  | true, .arr l => imageUrlsPostList l
  | _, _ => []
end

mutual
/-- Document-order (pre-order) sequence of resolved image URLs: each image
block's own URL comes before the URLs inside its children. -/
def imageUrlsDocList : BlockList → List String
  | .nil => []
  | .cons b rest => imageUrlsDocBlock b ++ imageUrlsDocList rest

/-- Document-order image URLs of one block. -/
def imageUrlsDocBlock : Block → List String
  | .mk hc ch core =>
    (match core with | .image f => [(parseFile f).url] | _ => []) ++
      imageUrlsDocChildren hc ch

/-- Document-order image URLs of a children field. -/
def imageUrlsDocChildren : Bool → ChildrenField → List String
  | true, .arr l => imageUrlsDocList l
  | _, _ => []
end

/-- The trace component of a render result (empty on failure). -/
def exceptTrace (e : Except String (String × List String)) : List String :=
  match e with
  | .ok p => p.2
  | .error _ => []

/-- In the sizing configuration, a successful `parseImageBlock` records
exactly the resolved URL in the trace. -/
theorem parseImageBlock_trace (gis : String → ImageSize) (epn : Bool)
    (img : FileWithCaption) (s : String) (tr : List String)
    (h : parseImageBlock ⟨false, true, some gis, epn⟩ img = .ok (s, tr)) :
    tr = [(parseFile img).url] := by
  by_cases hcond : (falsyNum (gis (parseFile img).url).width ||
      falsyNum (gis (parseFile img).url).height) = true
  · rw [show parseImageBlock ⟨false, true, some gis, epn⟩ img = .error widthHeightMsg
      from by simp [parseImageBlock, hcond]] at h
    exact absurd h (by simp)
  · rw [show parseImageBlock ⟨false, true, some gis, epn⟩ img =
        .ok ("![" ++ (parseFile img).caption ++ "|"
          ++ toString ((gis (parseFile img).url).width.getD 0) ++ "x"
          ++ toString ((gis (parseFile img).url).height.getD 0) ++ "]("
          ++ (parseFile img).url ++ ")" ++ EOL_MD, [(parseFile img).url])
      from by simp [parseImageBlock, hcond]] at h
    simp only [Except.ok.injEq, Prod.mk.injEq] at h
    exact h.2.symm

mutual
/-- Trace lemma, sequence case: a successful walk in the sizing
configuration records the post-order image URLs. -/
theorem trace_post_blocks (gis : String → ImageSize) (epn : Bool)
    (pvu : String → Bool × String) :
    ∀ (bl : BlockList) (depth : Nat) (md : String) (tr : List String),
      parseBlocks ⟨false, true, some gis, epn⟩ pvu bl depth = .ok (md, tr) →
      tr = imageUrlsPostList bl
  | .nil, depth, md, tr, h => by
      simp only [parseBlocks] at h
      cases h
      rfl
  | .cons b rest, depth, md, tr, h => by
      rw [parseBlocks] at h
      cases hpb : parseOne ⟨false, true, some gis, epn⟩ pvu b depth with
      | error e => rw [hpb] at h; exact absurd h (by simp)
      | ok pb =>
        rw [hpb] at h
        cases hpr : parseBlocks ⟨false, true, some gis, epn⟩ pvu rest depth with
        | error e => rw [hpr] at h; exact absurd h (by simp)
        | ok pr =>
          rw [hpr] at h
          simp only [Except.ok.injEq, Prod.mk.injEq] at h
          obtain ⟨_, ht⟩ := h
          have h1 := trace_post_block gis epn pvu b depth pb.1 pb.2 (by simpa using hpb)
          have h2 := trace_post_blocks gis epn pvu rest depth pr.1 pr.2 (by simpa using hpr)
          rw [imageUrlsPostList, ← h1, ← h2, ht]

/-- Trace lemma, single-block case. -/
theorem trace_post_block (gis : String → ImageSize) (epn : Bool)
    (pvu : String → Bool × String) :
    ∀ (b : Block) (depth : Nat) (md : String) (tr : List String),
      parseOne ⟨false, true, some gis, epn⟩ pvu b depth = .ok (md, tr) →
      tr = imageUrlsPostBlock b
  | .mk hc ch core, depth, md, tr, h => by
      rw [parseOne] at h
      cases hpc : parseChildren ⟨false, true, some gis, epn⟩ pvu hc ch depth with
      | error e => rw [hpc] at h; exact absurd h (by simp)
      | ok pc =>
        rw [hpc] at h
        have hch := trace_post_children gis epn pvu hc ch depth pc.1 pc.2
          (by simpa using hpc)
        cases core
        case image img =>
          have h2 : (match parseImageBlock ⟨false, true, some gis, epn⟩ img with
              | Except.error e => Except.error (α := String × List String) e
              | Except.ok pi =>
                Except.ok (String.mk (List.replicate depth ' ') ++ pi.1 ++ pc.1,
                  pc.2 ++ pi.2)) = Except.ok (md, tr) := h
          cases hpi : parseImageBlock ⟨false, true, some gis, epn⟩ img with
          | error e =>
            rw [hpi] at h2
            exact absurd (congrArg Except.isOk h2) (by simp [Except.isOk, Except.toBool])
          | ok pi =>
            rw [hpi] at h2
            have ht : pc.2 ++ pi.2 = tr := congrArg exceptTrace h2
            have hurl := parseImageBlock_trace gis epn img pi.1 pi.2 (by simpa using hpi)
            rw [← ht, hch, hurl]
            simp [imageUrlsPostBlock]
        case code lang rt =>
          have h2 : (match parseCodeBlock lang rt with
              | some s =>
                Except.ok (String.mk (List.replicate depth ' ') ++ s ++ pc.1, pc.2)
              | none => Except.error (α := String × List String) firstRichTextMsg) =
              Except.ok (md, tr) := h
          cases hcb : parseCodeBlock lang rt with
          | none =>
            rw [hcb] at h2
            exact absurd (congrArg Except.isOk h2) (by simp [Except.isOk, Except.toBool])
          | some s =>
            rw [hcb] at h2
            have ht : pc.2 = tr := congrArg exceptTrace h2
            rw [← ht, hch]
            simp [imageUrlsPostBlock]
        all_goals
          have ht : pc.2 = tr := congrArg exceptTrace h
          rw [← ht, hch]
          simp [imageUrlsPostBlock]

/-- Trace lemma, children case. -/
theorem trace_post_children (gis : String → ImageSize) (epn : Bool)
    (pvu : String → Bool × String) :
    ∀ (hc : Bool) (ch : ChildrenField) (depth : Nat) (s : String) (t : List String),
      parseChildren ⟨false, true, some gis, epn⟩ pvu hc ch depth = .ok (s, t) →
      t = imageUrlsPostChildren hc ch
  | true, .arr l, depth, s, t, h => by
      rw [parseChildren] at h
      cases hpb : parseBlocks ⟨false, true, some gis, epn⟩ pvu l (depth + 2) with
      | error e => rw [hpb] at h; exact absurd h (by simp)
      | ok pr =>
        rw [hpb] at h
        simp only [Except.ok.injEq, Prod.mk.injEq] at h
        obtain ⟨_, ht⟩ := h
        have := trace_post_blocks gis epn pvu l (depth + 2) pr.1 pr.2 (by simpa using hpb)
        rw [imageUrlsPostChildren, ← this, ← ht]
  | true, .undef, depth, s, t, h => by
      simp only [parseChildren] at h
      cases h
      rfl
  | false, .arr l, depth, s, t, h => by
      simp only [parseChildren] at h
      cases h
      rfl
  | false, .undef, depth, s, t, h => by
      simp only [parseChildren] at h
      cases h
      rfl
end

/-- Claim C4 (amended): with the sizing configuration active
(`imageAsFigure = false`, `addImageSizeToAltText = true`, a lookup
supplied), a successful render issues the `getImageSize` calls sequentially
and their URL trace equals the *post-order* image URL sequence of the
document: within each block the children's image URLs come first and the
block's own URL last — this coincides with document order exactly when no
image block itself contains image blocks. -/
theorem parse_trace_post (gis : String → ImageSize) (epn : Bool)
    (pvu : String → Bool × String) (bl : BlockList) (depth : Nat) (md : String)
    (tr : List String)
    (h : parse ⟨false, true, some gis, epn⟩ pvu bl depth = .ok (md, tr)) :
    tr = imageUrlsPostList bl := by
  rw [parse] at h
  cases hpb : parseBlocks ⟨false, true, some gis, epn⟩ pvu bl depth with
  | error e => rw [hpb] at h; exact absurd h (by simp)
  | ok pr =>
    rw [hpb] at h
    simp only [Except.ok.injEq, Prod.mk.injEq] at h
    obtain ⟨_, ht⟩ := h
    rw [← ht]
    exact trace_post_blocks gis epn pvu bl depth pr.1 pr.2 (by simpa using hpb)

/-- Witness for `parse_trace_post`: a single image block document. -/
theorem parse_trace_post_witness :
    (["u"] : List String) =
      imageUrlsPostList (.cons (.mk false .undef (.image img0)) .nil) :=
  parse_trace_post sz1020 false pvu0 (.cons (.mk false .undef (.image img0)) .nil) 0
    "![cap|10x20](u)\n\n" ["u"] rfl

/-- A document whose single top-level block is an image (URL `a`) that
itself contains an image child (URL `b`). -/
def nestedImgBlocks : BlockList :=
  .cons (.mk true
    (.arr (.cons (.mk false .undef (.image ⟨.external "b", none⟩)) .nil))
    (.image ⟨.external "a", none⟩)) .nil

/-- Claim C4, counterexample: children are rendered *before* the block's own
renderer runs, so for an image block containing an image child the child's
URL is looked up first — the actual trace is `["b", "a"]` while the
document-order sequence of the image URLs is `["a", "b"]`. -/
theorem parse_trace_doc_order_cex :
    exceptTrace (parse ⟨false, true, some (fun _ => ⟨some 1, some 1⟩), false⟩ pvu0
      nestedImgBlocks 0) = ["b", "a"] ∧
    imageUrlsDocList nestedImgBlocks = ["a", "b"] ∧
    (["b", "a"] : List String) ≠ ["a", "b"] :=
  ⟨rfl, rfl, by decide⟩

/-! Section: Claim C10 -/

/-- Claim C10: the accessor is a singleton — the first `getInstance` call
constructs the parser by merging its options over the defaults
(`imageAsFigure := true`, `emptyParagraphToNonBreakingSpace := false`), and
a second call returns the same instance, ignoring the later options, so the
resulting configuration depends only on the first call's options. -/
theorem getInstance_singleton (o1 o2 : Option OptionsInput) :
    (getInstance ((getInstance none o1).2) o2).1 = (getInstance none o1).1 ∧
    (getInstance none o1).1 = mkParserOptions o1 ∧
    (∀ oi : OptionsInput,
      (mkParserOptions (some oi)).imageAsFigure = oi.imageAsFigure.getD true ∧
      (mkParserOptions (some oi)).emptyParagraphToNonBreakingSpace =
        oi.emptyParagraphToNonBreakingSpace.getD false ∧
      (mkParserOptions (some oi)).addImageSizeToAltText =
        oi.addImageSizeToAltText.getD false ∧
      (mkParserOptions (some oi)).getImageSize = oi.getImageSize) :=
  ⟨rfl, rfl, fun _ => ⟨rfl, rfl, rfl, rfl⟩⟩

end NotionBlocksMarkdownParser
